import Mathlib

/-!
Shallow embedding of `src/client/bucket_access_control.rs`: the bucket
access-control sub-client with its five operations (`create_using`,
`list`, `read`, `update`, `delete`). Collaborators whose code is not part
of the embedded source file (the data models, the `Entity` string form,
the percent-encoding utility, the error type, the shared HTTP/auth
context and the JSON decoders) are modelled from the specification, each
marked as such in its doc comment. Operations are embedded as pure
functions over an explicit collaborator record and additionally return
the list of observable effects (header acquisition, HTTP requests,
body-decoding attempts) so that temporal claims about the control flow
can be stated.
-/

namespace CloudStorage

/-- Modelled from the spec: `Entity` (defined in `models`, not under
`src/`) is a closed variant type of identity principals: specific user,
group, domain, project team, or one of the special collective values. -/
inductive Entity where
  | User (id : String)
  | Group (id : String)
  | Domain (d : String)
  | Project (team : String) (id : String)
  | AllUsers
  | AllAuthenticatedUsers
deriving DecidableEq

/-- Modelled from the spec: the canonical string serialization of an
`Entity`, following the wire grammar `user-{id}`, `group-{id}`,
`domain-{d}`, `project-{team}-{id}`, `allUsers`,
`allAuthenticatedUsers`. -/
def Entity.to_string : Entity → String
  | .User id => "user-" ++ id
  | .Group id => "group-" ++ id
  | .Domain d => "domain-" ++ d
  | .Project team id => "project-" ++ team ++ "-" ++ id
  | .AllUsers => "allUsers"
  | .AllAuthenticatedUsers => "allAuthenticatedUsers"

/-- Modelled from the spec: the `role` attribute of an access-control
entry (enumerated: reader, owner). -/
inductive Role where
  | Reader
  | Owner
deriving DecidableEq

/-- Modelled from the spec: `BucketAccessControl` (an access-control
entry, defined in `models`, not under `src/`): `entity`, `role`, plus
server-assigned metadata (id, etag, self-link) echoed back from the
API. -/
structure BucketAccessControl where
  entity : Entity
  role : Role
  id : String
  etag : String
  self_link : String
deriving DecidableEq

namespace create

/-- Modelled from the spec: `create::BucketAccessControl` (the creation
request payload, defined in `models`, not under `src/`): `entity` and
`role` only, no server-assigned fields. -/
structure BucketAccessControl where
  entity : Entity
  role : Role
deriving DecidableEq

end create

/-- Modelled from the spec: `ListResponse<T>` wraps an ordered sequence
of `T` under a fixed key; order is preserved. -/
structure ListResponse (T : Type) where
  items : List T
deriving DecidableEq

/-- Modelled from the spec: the server-reported error object: status,
message, and the list of per-field error reasons. -/
structure GoogleErrorBody where
  status : Nat
  message : String
  reasons : List String
deriving DecidableEq

/-- Modelled from the spec: the single error channel with the taxonomy
{Transport (network/protocol failure), Decode (response body does not
match the expected JSON shape), Google (the Api kind: server returned a
well-formed error envelope)}. The `Google` variant name is the one
visible in the source (`crate::Error::Google`). -/
inductive Error where
  | Transport (msg : String)
  | Decode (msg : String)
  | Google (e : GoogleErrorBody)
deriving DecidableEq

/-- Modelled from the spec: `Response<T>` (`ApiResult<T>`): either a
domain value or a server-reported error object; exactly one of the two
is present. -/
inductive Response (T : Type) where
  | success (v : T)
  | error (e : GoogleErrorBody)
deriving DecidableEq

/-- Turning the decoded envelope into the caller-facing result, as the
source's second `?` does: the error shape surfaces as the Api error
kind, otherwise the domain value is returned. -/
def Response.toResult {T : Type} : Response T → Except Error T
  | .success v => .ok v
  | .error e => .error (.Google e)

/-! ## Percent-encoding (modelled from the spec)

The percent-encoding utility `crate::percent_encode` is an external
collaborator (not under `src/`). The spec requires a pure function that
escapes every character unsafe in a URL path segment, including the
solidus. The model works character-wise on single-byte characters
(the entity wire grammar is single-byte); characters above 255 are
outside that grammar and pass through. A percent-decoder is defined as
well in order to state the round-trip law. -/

/-- Characters left unescaped in a URL path segment (the unreserved
set: letters, digits, hyphen, period, underscore, tilde). -/
def unreservedChar (c : Char) : Bool :=
  c.isAlphanum || c = '-' || c = '.' || c = '_' || c = '~'

/-- The uppercase hexadecimal digit for a value below 16. -/
def hexDigit (n : Nat) : Char :=
  if n < 10 then Char.ofNat (48 + n) else Char.ofNat (55 + n)

/-- The value of a hexadecimal digit character, if it is one. -/
def hexVal (c : Char) : Option Nat :=
  if 48 ≤ c.toNat ∧ c.toNat ≤ 57 then some (c.toNat - 48)
  else if 65 ≤ c.toNat ∧ c.toNat ≤ 70 then some (c.toNat - 55)
  else if 97 ≤ c.toNat ∧ c.toNat ≤ 102 then some (c.toNat - 87)
  else none

/-- Modelled from the spec: the encoding of one character; unsafe
single-byte characters become a percent triple. -/
def encodeChar (c : Char) : List Char :=
  if unreservedChar c then [c]
  else if c.toNat < 256 then
    ['%', hexDigit (c.toNat / 16), hexDigit (c.toNat % 16)]
  else [c]

/-- Character-list form of the percent-encoder. -/
def percentEncodeList : List Char → List Char
  | [] => []
  | c :: cs => encodeChar c ++ percentEncodeList cs

/-- Modelled from the spec: `crate::percent_encode`, a pure function
from a string to its URL-path-segment-safe percent-encoded form. -/
def percent_encode (s : String) : String :=
  ⟨percentEncodeList s.data⟩

/-- Character-list form of the percent-decoder: a percent triple is
replaced by the character it denotes; anything else passes through. -/
def percentDecodeList : List Char → List Char
  | [] => []
  | [c] => [c]
  | [c1, c2] => [c1, c2]
  | c :: h1 :: h2 :: rest =>
    if c = '%' then
      match hexVal h1, hexVal h2 with
      | some a, some b => Char.ofNat (16 * a + b) :: percentDecodeList rest
      | _, _ => c :: percentDecodeList (h1 :: h2 :: rest)
    else c :: percentDecodeList (h1 :: h2 :: rest)

/-- Percent-decoding of a string, used to state the round-trip law for
member-URL path segments. -/
def percent_decode (s : String) : String :=
  ⟨percentDecodeList s.data⟩

/-! ## Strict decoding of the API error body (modelled from the spec)

The serde-based JSON decoding is an external collaborator. For the
claims about `delete`'s non-success path a concrete strict decoder of
the error envelope is needed; it parses exactly the canonical
serialization of the error object and rejects everything else — in
particular an empty body is not a well-formed error object. -/

/-- Skip JSON whitespace. -/
def skipWs : List Char → List Char
  | [] => []
  | c :: rest =>
    if c = ' ' ∨ c = '\t' ∨ c = '\n' ∨ c = '\r' then skipWs rest
    else c :: rest

/-- Read the characters of a JSON string up to the closing quote. -/
def parseStrAux : List Char → Option (List Char × List Char)
  | [] => none
  | c :: cs =>
    if c = '"' then some ([], cs)
    else
      match parseStrAux cs with
      | some (acc, rest) => some (c :: acc, rest)
      | none => none

/-- Parse a JSON string literal (no escape sequences). -/
def parseJString : List Char → Option (String × List Char)
  | '"' :: cs =>
    match parseStrAux cs with
    | some (acc, rest) => some (⟨acc⟩, rest)
    | none => none
  | _ => none

/-- Accumulate decimal digits. -/
def parseDigits : List Char → Nat → Nat × List Char
  | c :: cs, acc =>
    if c.isDigit then parseDigits cs (acc * 10 + (c.toNat - 48))
    else (acc, c :: cs)
  | [], acc => (acc, [])

/-- Parse a natural number literal (at least one digit). -/
def parseNat : List Char → Option (Nat × List Char)
  | c :: cs => if c.isDigit then some (parseDigits (c :: cs) 0) else none
  | [] => none

/-- Expect one character, after whitespace. -/
def expectChar (c : Char) (s : List Char) : Option (List Char) :=
  match skipWs s with
  | x :: rest => if x = c then some rest else none
  | [] => none

/-- Expect a quoted key followed by a colon. -/
def expectKey (key : String) (s : List Char) : Option (List Char) :=
  match parseJString (skipWs s) with
  | some (k, rest) =>
    if k = key then expectChar ':' rest else none
  | none => none

/-- Parse the remaining comma-separated string items of an array, with
fuel bounding the recursion. -/
def parseStrItems : Nat → List Char → Option (List String × List Char)
  | 0, _ => none
  | fuel + 1, s =>
    match parseJString (skipWs s) with
    | none => none
    | some (str, rest) =>
      match skipWs rest with
      | ',' :: rest2 =>
        match parseStrItems fuel rest2 with
        | some (strs, r) => some (str :: strs, r)
        | none => none
      | ']' :: rest2 => some ([str], rest2)
      | _ => none

/-- Parse a JSON array of strings. -/
def parseStrList (s : List Char) : Option (List String × List Char) :=
  match skipWs s with
  | '[' :: rest =>
    match skipWs rest with
    | ']' :: rest2 => some ([], rest2)
    | _ => parseStrItems (rest.length + 1) rest
  | _ => none

/-- Modelled from the spec: strict decoding of the body as the API
error object, succeeding only on the canonical serialization of the
error envelope. -/
def decodeGoogleErrorOpt (body : String) : Option GoogleErrorBody := do
  let s ← expectChar '\x7b' body.data
  let s ← expectKey "error" s
  let s ← expectChar '\x7b' s
  let s ← expectKey "status" s
  let (st, s) ← parseNat (skipWs s)
  let s ← expectChar ',' s
  let s ← expectKey "message" s
  let (msg, s) ← parseJString (skipWs s)
  let s ← expectChar ',' s
  let s ← expectKey "reasons" s
  let (rs, s) ← parseStrList s
  let s ← expectChar '\x7d' s
  let s ← expectChar '\x7d' s
  if skipWs s = [] then some ⟨st, msg, rs⟩ else none

/-- Modelled from the spec: the error-body decoder as used on
`delete`'s non-success path; a body that does not match the expected
JSON shape yields a decode failure. -/
def decodeGoogleError (body : String) : Except String GoogleErrorBody :=
  match decodeGoogleErrorOpt body with
  | some e => .ok e
  | none => .error "body does not decode as the API error object"

/-! ## The client and its collaborators -/

/-- Header sets are opaque to this layer; a list of name/value pairs. -/
abbrev Headers := List (String × String)

/-- The HTTP verbs used by the five operations. -/
inductive Verb where
  | GET
  | POST
  | PUT
  | DELETE
deriving DecidableEq

/-- The request body as handed to the transport: none, the creation
payload of `create_using`, or the full entry of `update`.
Serialization of the payload to JSON is the transport collaborator's
side of the boundary, so the body is recorded as the domain value. -/
inductive ReqBody where
  | none
  | newAcl (n : create.BucketAccessControl)
  | acl (a : BucketAccessControl)
deriving DecidableEq

/-- One HTTP request as issued to the transport. -/
structure HttpRequest where
  verb : Verb
  url : String
  headers : Headers
  body : ReqBody
deriving DecidableEq

/-- A raw HTTP response: a status code and a body. -/
structure HttpResponse where
  status : Nat
  body : String
deriving DecidableEq

/-- The 2xx success class check, as `reqwest::StatusCode::is_success`
(200 up to and including 299). -/
def status_is_success (s : Nat) : Bool :=
  decide (200 ≤ s) && decide (s < 300)

/-- Modelled from the spec: the shared HTTP/auth context
(`super::client::Client`, not under `src/`); `get_headers` supplies the
authorization headers or fails through the single error channel, and
`transport` issues one request and returns a raw response or a
transport-level failure. -/
structure Client where
  get_headers : Except Error Headers
  transport : HttpRequest → Except String HttpResponse

/-- The bucket ACL sub-client: a borrowed shared context and the
precomputed collection URL, as in the source. -/
structure BucketAccessControlClient where
  client : Client
  bucket_acl_url : String

/-- Observable effects of one operation, in order: acquiring headers,
issuing an HTTP request, attempting to decode a response body. -/
inductive Event where
  | getHeaders
  | request (r : HttpRequest)
  | decodeAttempt (body : String)
deriving DecidableEq

/-- The decoder for a body expected to hold a `Response T` envelope
(serde is the external collaborator; any such decoder may be
plugged in). -/
abbrev EnvelopeDecoder (T : Type) := String → Except String (Response T)

/-- The POST request of `create_using`: collection URL, creation
payload as body. -/
def create_req (self : BucketAccessControlClient)
    (new_bucket_access_control : create.BucketAccessControl)
    (headers : Headers) : HttpRequest :=
  ⟨.POST, self.bucket_acl_url, headers, .newAcl new_bucket_access_control⟩

/-- The GET request of `list`: collection URL, no body. -/
def list_req (self : BucketAccessControlClient) (headers : Headers) :
    HttpRequest :=
  ⟨.GET, self.bucket_acl_url, headers, .none⟩

/-- The GET request of `read`: member URL built from the entity's
canonical string, percent-encoded, no body. -/
def read_req (self : BucketAccessControlClient) (entity : Entity)
    (headers : Headers) : HttpRequest :=
  ⟨.GET, self.bucket_acl_url ++ "/" ++ percent_encode entity.to_string,
    headers, .none⟩

/-- The PUT request of `update`: member URL built from the entry's
embedded entity, full entry as body. -/
def update_req (self : BucketAccessControlClient)
    (bucket_access_control : BucketAccessControl) (headers : Headers) :
    HttpRequest :=
  ⟨.PUT,
    self.bucket_acl_url ++ "/"
      ++ percent_encode bucket_access_control.entity.to_string,
    headers, .acl bucket_access_control⟩

/-- The DELETE request of `delete`: member URL built from the entry's
embedded entity, no body. -/
def delete_req (self : BucketAccessControlClient)
    (bucket_access_control : BucketAccessControl) (headers : Headers) :
    HttpRequest :=
  ⟨.DELETE,
    self.bucket_acl_url ++ "/"
      ++ percent_encode bucket_access_control.entity.to_string,
    headers, .none⟩

/-- `create_using`: acquire headers, POST the creation payload to the
collection URL, decode the body as a `Response BucketAccessControl`
envelope and unwrap it. Every `?` of the source is a `match` here;
the effect trace is returned alongside the result. -/
def BucketAccessControlClient.create_using
    (self : BucketAccessControlClient)
    (dec : EnvelopeDecoder BucketAccessControl)
    (new_bucket_access_control : create.BucketAccessControl) :
    Except Error BucketAccessControl × List Event :=
  match self.client.get_headers with
  | .error e => (.error e, [.getHeaders])
  | .ok headers =>
    let req := create_req self new_bucket_access_control headers
    match self.client.transport req with
    | .error te => (.error (.Transport te), [.getHeaders, .request req])
    | .ok resp =>
      match dec resp.body with
      | .error de =>
        (.error (.Decode de),
          [.getHeaders, .request req, .decodeAttempt resp.body])
      | .ok result =>
        (result.toResult,
          [.getHeaders, .request req, .decodeAttempt resp.body])

/-- `list`: acquire headers, GET the collection URL, decode the body as
a `Response (ListResponse BucketAccessControl)` envelope, unwrap it and
project the items. -/
def BucketAccessControlClient.list (self : BucketAccessControlClient)
    (dec : EnvelopeDecoder (ListResponse BucketAccessControl)) :
    Except Error (List BucketAccessControl) × List Event :=
  match self.client.get_headers with
  | .error e => (.error e, [.getHeaders])
  | .ok headers =>
    let req := list_req self headers
    match self.client.transport req with
    | .error te => (.error (.Transport te), [.getHeaders, .request req])
    | .ok response =>
      match dec response.body with
      | .error de =>
        (.error (.Decode de),
          [.getHeaders, .request req, .decodeAttempt response.body])
      | .ok object =>
        (object.toResult.map ListResponse.items,
          [.getHeaders, .request req, .decodeAttempt response.body])

/-- `read`: build the member URL from the entity, acquire headers, GET
it, decode the body as a `Response BucketAccessControl` envelope and
unwrap it. -/
def BucketAccessControlClient.read (self : BucketAccessControlClient)
    (dec : EnvelopeDecoder BucketAccessControl) (entity : Entity) :
    Except Error BucketAccessControl × List Event :=
  match self.client.get_headers with
  | .error e => (.error e, [.getHeaders])
  | .ok headers =>
    let req := read_req self entity headers
    match self.client.transport req with
    | .error te => (.error (.Transport te), [.getHeaders, .request req])
    | .ok resp =>
      match dec resp.body with
      | .error de =>
        (.error (.Decode de),
          [.getHeaders, .request req, .decodeAttempt resp.body])
      | .ok result =>
        (result.toResult,
          [.getHeaders, .request req, .decodeAttempt resp.body])

/-- `update`: build the member URL from the entry's embedded entity,
acquire headers, PUT the full entry, decode the body as a
`Response BucketAccessControl` envelope and unwrap it. -/
def BucketAccessControlClient.update (self : BucketAccessControlClient)
    (dec : EnvelopeDecoder BucketAccessControl)
    (bucket_access_control : BucketAccessControl) :
    Except Error BucketAccessControl × List Event :=
  match self.client.get_headers with
  | .error e => (.error e, [.getHeaders])
  | .ok headers =>
    let req := update_req self bucket_access_control headers
    match self.client.transport req with
    | .error te => (.error (.Transport te), [.getHeaders, .request req])
    | .ok resp =>
      match dec resp.body with
      | .error de =>
        (.error (.Decode de),
          [.getHeaders, .request req, .decodeAttempt resp.body])
      | .ok result =>
        (result.toResult,
          [.getHeaders, .request req, .decodeAttempt resp.body])

/-- `delete`: build the member URL from the entry's embedded entity,
acquire headers, DELETE it; a 2xx status yields unit without touching
the body, any other status decodes the body strictly as the API error
object (`Err(Error::Google(response.json().await?))`). -/
def BucketAccessControlClient.delete (self : BucketAccessControlClient)
    (decErr : String → Except String GoogleErrorBody)
    (bucket_access_control : BucketAccessControl) :
    Except Error Unit × List Event :=
  match self.client.get_headers with
  | .error e => (.error e, [.getHeaders])
  | .ok headers =>
    let req := delete_req self bucket_access_control headers
    match self.client.transport req with
    | .error te => (.error (.Transport te), [.getHeaders, .request req])
    | .ok response =>
      if status_is_success response.status then
        (.ok (), [.getHeaders, .request req])
      else
        match decErr response.body with
        | .error de =>
          (.error (.Decode de),
            [.getHeaders, .request req, .decodeAttempt response.body])
        | .ok e =>
          (.error (.Google e),
            [.getHeaders, .request req, .decodeAttempt response.body])

/-! ## Trace projections and outcome classification -/

/-- The HTTP requests recorded in an effect trace. -/
def requestsOf (events : List Event) : List HttpRequest :=
  events.filterMap fun e =>
    match e with
    | .request r => some r
    | _ => Option.none

/-- The body-decoding attempts recorded in an effect trace. -/
def decodesOf (events : List Event) : List String :=
  events.filterMap fun e =>
    match e with
    | .decodeAttempt b => some b
    | _ => Option.none

/-- How many of the four outcome kinds (success value, Api error,
Transport error, Decode error) a result falls under. -/
def outcomeCount {T : Type} (r : Except Error T) : Nat :=
  (match r with | .ok _ => 1 | _ => 0)
    + (match r with | .error (.Google _) => 1 | _ => 0)
    + (match r with | .error (.Transport _) => 1 | _ => 0)
    + (match r with | .error (.Decode _) => 1 | _ => 0)

/-! ## Sequential calls on one client handle

The source methods all take the receiver by shared reference, so a
sequence of calls threads the same handle through unchanged; the
dispatcher below makes that threading explicit so that it can be
proved. -/

/-- One call to any of the five operations, with its argument. -/
inductive OpCall where
  | createUsing (n : create.BucketAccessControl)
  | listAll
  | readOne (e : Entity)
  | updateOne (a : BucketAccessControl)
  | deleteOne (a : BucketAccessControl)

/-- The result of one dispatched call, tagged by its payload type. -/
inductive OpResult where
  | acl (r : Except Error BucketAccessControl)
  | acls (r : Except Error (List BucketAccessControl))
  | unit (r : Except Error Unit)

/-- Dispatch one call on the client handle; the handle is taken by
shared reference in the source, so it is handed back alongside the
result. -/
def callOp (dec : EnvelopeDecoder BucketAccessControl)
    (decl : EnvelopeDecoder (ListResponse BucketAccessControl))
    (decErr : String → Except String GoogleErrorBody)
    (self : BucketAccessControlClient) :
    OpCall → (OpResult × List Event) × BucketAccessControlClient
  | .createUsing n =>
    let r := self.create_using dec n
    ((.acl r.1, r.2), self)
  | .listAll =>
    let r := self.list decl
    ((.acls r.1, r.2), self)
  | .readOne e =>
    let r := self.read dec e
    ((.acl r.1, r.2), self)
  | .updateOne a =>
    let r := self.update dec a
    ((.acl r.1, r.2), self)
  | .deleteOne a =>
    let r := self.delete decErr a
    ((.unit r.1, r.2), self)

/-- Run a sequence of calls, threading the client handle. -/
def runOps (dec : EnvelopeDecoder BucketAccessControl)
    (decl : EnvelopeDecoder (ListResponse BucketAccessControl))
    (decErr : String → Except String GoogleErrorBody) :
    BucketAccessControlClient → List OpCall →
      List (OpResult × List Event) × BucketAccessControlClient
  | self, [] => ([], self)
  | self, c :: cs =>
    let step := callOp dec decl decErr self c
    let rest := runOps dec decl decErr step.2 cs
    (step.1 :: rest.1, rest.2)

/-! ## Concrete collaborator instances

Closed values used to exercise the operations on concrete worlds. -/

/-- A single-byte string check (used to scope the round-trip law to the
single-byte entity wire grammar). -/
def singleByteStr (s : String) : Bool :=
  s.data.all fun c => decide (c.toNat < 256)

/-- Demo header set. -/
def hdrsDemo : Headers := [("authorization", "bearer demo-token")]

/-- Whether a result is the Api (Google) error kind. -/
def isApiError {T : Type} : Except Error T → Bool
  | .error (.Google _) => true
  | _ => false

/-- Whether a result is a success value. -/
def isSuccessResult {T : Type} : Except Error T → Bool
  | .ok _ => true
  | _ => false

/-- Demo entity embedding both a solidus and an at sign. -/
def entityDemo : Entity := .Group "team/dev@example.com"

/-- Demo entry whose entity embeds both a solidus and an at sign. -/
def aclDemo : BucketAccessControl :=
  ⟨entityDemo, .Reader, "my-bucket/team", "etag-1", "resource-link-1"⟩

/-- A second demo entry with the same entity as `aclDemo` but different
role and server-assigned fields. -/
def aclDemo2 : BucketAccessControl :=
  ⟨entityDemo, .Owner, "other-id", "etag-9", "resource-link-9"⟩

/-- Demo creation payload. -/
def newDemo : create.BucketAccessControl := ⟨.AllUsers, .Reader⟩

/-- Demo collection URL. -/
def demoUrl : String := "https://storage.example.test/b/my-bucket/acl"

/-- A client whose transport always answers 403 with an empty body. -/
def c403 : BucketAccessControlClient :=
  ⟨⟨.ok hdrsDemo, fun _ => .ok ⟨403, ""⟩⟩, demoUrl⟩

/-- A client whose transport always answers 204 with an empty body. -/
def c204 : BucketAccessControlClient :=
  ⟨⟨.ok hdrsDemo, fun _ => .ok ⟨204, ""⟩⟩, demoUrl⟩

/-- A client whose transport always answers 400 with a fixed body. -/
def c400 : BucketAccessControlClient :=
  ⟨⟨.ok hdrsDemo, fun _ => .ok ⟨400, "payload"⟩⟩, demoUrl⟩

/-- A client whose transport always fails before any response. -/
def cDown : BucketAccessControlClient :=
  ⟨⟨.ok hdrsDemo, fun _ => .error "connection reset"⟩, demoUrl⟩

/-- A client whose credential provider fails. -/
def cNoAuth : BucketAccessControlClient :=
  ⟨⟨.error (.Transport "credential refresh failed"),
    fun _ => .ok ⟨200, ""⟩⟩, demoUrl⟩

/-- A decoder that always yields the demo entry as a success
envelope. -/
def decOk : EnvelopeDecoder BucketAccessControl :=
  fun _ => .ok (.success aclDemo)

/-- A decoder that always yields the one-item demo list as a success
envelope. -/
def declOk : EnvelopeDecoder (ListResponse BucketAccessControl) :=
  fun _ => .ok (.success ⟨[aclDemo]⟩)

/-- An envelope decoder that rejects every body. -/
def decNever : EnvelopeDecoder BucketAccessControl :=
  fun _ => .error "unexpected body"

/-- A list envelope decoder that rejects every body. -/
def declNever : EnvelopeDecoder (ListResponse BucketAccessControl) :=
  fun _ => .error "unexpected body"

/-- An error-object decoder that rejects every body. -/
def decErrNever : String → Except String GoogleErrorBody :=
  fun _ => .error "unexpected body"

/-! ## Helper lemmas -/

/-- Any result falls under exactly one of the four outcome kinds. -/
theorem outcomeCount_eq_one {T : Type} (r : Except Error T) :
    outcomeCount r = 1 := by
  rcases r with e | v
  · cases e <;> rfl
  · rfl

/-- An unreserved character is never the percent sign. -/
theorem unreservedChar_ne_percent {c : Char}
    (hc : unreservedChar c = true) : c ≠ '%' := by
  intro h
  subst h
  exact absurd hc (by decide)

/-- `hexVal` inverts `hexDigit` on values below 16. -/
theorem hexVal_hexDigit {n : Nat} (hn : n < 16) :
    hexVal (hexDigit n) = some n := by
  have h : ∀ m < 16, hexVal (hexDigit m) = some m := by decide
  exact h n hn

/-- Decoding steps over a character that is not a percent sign. -/
theorem percentDecodeList_cons_ne (c : Char) (rest : List Char)
    (hc : ¬ c = '%') :
    percentDecodeList (c :: rest) = c :: percentDecodeList rest := by
  match rest with
  | [] => rfl
  | [x] => rfl
  | x :: y :: r => simp [percentDecodeList, hc]

/-- Decoding inverts the encoding of one single-byte character. -/
theorem percentDecodeList_encodeChar (c : Char) (hc : c.toNat < 256)
    (rest : List Char) :
    percentDecodeList (encodeChar c ++ rest) = c :: percentDecodeList rest := by
  by_cases hu : unreservedChar c
  · rw [encodeChar, if_pos hu]
    exact percentDecodeList_cons_ne c rest (unreservedChar_ne_percent hu)
  · rw [encodeChar, if_neg hu, if_pos hc]
    have h1 : c.toNat / 16 < 16 :=
      (Nat.div_lt_iff_lt_mul (by decide)).mpr (by omega)
    have h2 : c.toNat % 16 < 16 := Nat.mod_lt _ (by decide)
    simp [percentDecodeList, hexVal_hexDigit h1, hexVal_hexDigit h2]
    rw [Nat.div_add_mod, Char.ofNat_toNat]

/-- Decoding inverts encoding on single-byte character lists. -/
theorem percentDecodeList_percentEncodeList (l : List Char)
    (hl : ∀ c ∈ l, c.toNat < 256) :
    percentDecodeList (percentEncodeList l) = l := by
  induction l with
  | nil => rfl
  | cons c cs ih =>
    rw [percentEncodeList,
      percentDecodeList_encodeChar c (hl c (List.mem_cons_self c cs)),
      ih fun x hx => hl x (List.mem_cons_of_mem c hx)]

/-- The encoding of one character never contains a solidus. -/
theorem solidus_not_mem_encodeChar (c : Char) : '/' ∉ encodeChar c := by
  unfold encodeChar
  split
  · intro hm
    rename_i hu
    rw [List.mem_singleton] at hm
    rw [← hm] at hu
    exact absurd hu (by decide)
  · split
    · intro hm
      simp only [List.mem_cons, List.not_mem_nil, or_false] at hm
      rename_i hlt
      rcases hm with h | h | h
      · exact absurd h (by decide)
      · have h1 : c.toNat / 16 < 16 :=
          (Nat.div_lt_iff_lt_mul (by decide)).mpr (by omega)
        have hv := hexVal_hexDigit h1
        rw [← h] at hv
        rw [(by decide : hexVal '/' = Option.none)] at hv
        exact Option.noConfusion hv
      · have h2 : c.toNat % 16 < 16 := Nat.mod_lt _ (by decide)
        have hv := hexVal_hexDigit h2
        rw [← h] at hv
        rw [(by decide : hexVal '/' = Option.none)] at hv
        exact Option.noConfusion hv
    · intro hm
      rw [List.mem_singleton] at hm
      rename_i hge
      rw [← hm] at hge
      exact absurd (by decide : ('/').toNat < 256) hge

/-- A percent-encoded string never contains a solidus. -/
theorem solidus_not_mem_percentEncodeList (l : List Char) :
    '/' ∉ percentEncodeList l := by
  induction l with
  | nil => simp [percentEncodeList]
  | cons c cs ih =>
    rw [percentEncodeList]
    intro hm
    rcases List.mem_append.mp hm with h | h
    · exact solidus_not_mem_encodeChar c h
    · exact ih h

/-- Dispatching one call hands the client handle back unchanged. -/
theorem callOp_handle (dec : EnvelopeDecoder BucketAccessControl)
    (decl : EnvelopeDecoder (ListResponse BucketAccessControl))
    (decErr : String → Except String GoogleErrorBody)
    (self : BucketAccessControlClient) (c : OpCall) :
    (callOp dec decl decErr self c).2 = self := by
  cases c <;> rfl

/-! ## Claims -/

/-- C1: every call to any of the five operations resolves to exactly
one of the four mutually exclusive outcomes: a success value, an Api
error, a Transport error, or a Decode error. -/
theorem claim_outcomes_exclusive_exhaustive
    (self : BucketAccessControlClient)
    (dec : EnvelopeDecoder BucketAccessControl)
    (decl : EnvelopeDecoder (ListResponse BucketAccessControl))
    (decErr : String → Except String GoogleErrorBody)
    (n : create.BucketAccessControl) (e : Entity)
    (acl acl2 : BucketAccessControl) :
    outcomeCount (self.create_using dec n).1 = 1
    ∧ outcomeCount (self.list decl).1 = 1
    ∧ outcomeCount (self.read dec e).1 = 1
    ∧ outcomeCount (self.update dec acl).1 = 1
    ∧ outcomeCount (self.delete decErr acl2).1 = 1 :=
  ⟨outcomeCount_eq_one _, outcomeCount_eq_one _, outcomeCount_eq_one _,
   outcomeCount_eq_one _, outcomeCount_eq_one _⟩

/-- C2: a `delete` call that receives an HTTP response succeeds (with
unit) exactly when the status is in the 2xx class; on 2xx the body is
never decoded, and on any other status the body is decoded strictly as
the API error object. -/
theorem claim_delete_status_class
    (self : BucketAccessControlClient)
    (decErr : String → Except String GoogleErrorBody)
    (acl : BucketAccessControl) (h : Headers) (resp : HttpResponse)
    (hh : self.client.get_headers = .ok h)
    (ht : self.client.transport (delete_req self acl h) = .ok resp) :
    ((self.delete decErr acl).1 = .ok ()
      ↔ status_is_success resp.status = true)
    ∧ (status_is_success resp.status = true →
        (self.delete decErr acl).2
            = [.getHeaders, .request (delete_req self acl h)]
        ∧ decodesOf (self.delete decErr acl).2 = [])
    ∧ (status_is_success resp.status = false →
        (self.delete decErr acl).1
            = match decErr resp.body with
              | .ok ge => .error (.Google ge)
              | .error de => .error (.Decode de)) := by
  unfold BucketAccessControlClient.delete
  rw [hh]
  simp only [ht]
  cases hs : status_is_success resp.status with
  | true =>
    exact ⟨by simp, fun _ => ⟨by simp, by simp [decodesOf]⟩,
      fun hc => Bool.noConfusion hc⟩
  | false =>
    refine ⟨?_, fun hc => Bool.noConfusion hc, fun _ => ?_⟩
    · cases hde : decErr resp.body <;> simp [hde]
    · cases hde : decErr resp.body <;> simp [hde]

/-- Witness for C2: a concrete `delete` against a transport answering
204 with an empty body succeeds with unit and never decodes a body. -/
theorem claim_delete_status_class_witness :
    c204.client.get_headers = .ok hdrsDemo
    ∧ c204.client.transport (delete_req c204 aclDemo hdrsDemo) = .ok ⟨204, ""⟩
    ∧ (c204.delete decodeGoogleError aclDemo).1 = .ok ()
    ∧ decodesOf (c204.delete decodeGoogleError aclDemo).2 = [] :=
  ⟨rfl, rfl,
    ((claim_delete_status_class c204 decodeGoogleError aclDemo hdrsDemo
        ⟨204, ""⟩ rfl rfl).1).mpr (by decide),
    ((claim_delete_status_class c204 decodeGoogleError aclDemo hdrsDemo
        ⟨204, ""⟩ rfl rfl).2.1 (by decide)).2⟩

/-- C3 as stated is false on the code: against a transport answering
403 with an empty body, `delete` returns a Decode error — the empty
body fails strict decoding as the API error object — so the result is
neither an Api error nor success. -/
theorem claim_delete_403_empty_counterexample :
    (c403.delete decodeGoogleError aclDemo).1
        = .error (.Decode "body does not decode as the API error object")
    ∧ isApiError (c403.delete decodeGoogleError aclDemo).1 = false
    ∧ isSuccessResult (c403.delete decodeGoogleError aclDemo).1 = false :=
  ⟨rfl, rfl, rfl⟩

/-- C3 (amended): a `delete` call whose transport returns status 403
with an empty body returns an error — of Decode kind, because the empty
body does not decode as the API error object — and neither success nor
an Api error. -/
theorem claim_delete_403_empty_decode
    (self : BucketAccessControlClient) (acl : BucketAccessControl)
    (h : Headers)
    (hh : self.client.get_headers = .ok h)
    (ht : self.client.transport (delete_req self acl h) = .ok ⟨403, ""⟩) :
    (self.delete decodeGoogleError acl).1
        = .error (.Decode "body does not decode as the API error object")
    ∧ isApiError (self.delete decodeGoogleError acl).1 = false
    ∧ isSuccessResult (self.delete decodeGoogleError acl).1 = false := by
  unfold BucketAccessControlClient.delete
  rw [hh]
  simp only [ht]
  exact ⟨rfl, rfl, rfl⟩

/-- Witness for the amended C3 at a concrete client. -/
theorem claim_delete_403_empty_decode_witness :
    c403.client.get_headers = .ok hdrsDemo
    ∧ c403.client.transport (delete_req c403 aclDemo hdrsDemo) = .ok ⟨403, ""⟩
    ∧ (c403.delete decodeGoogleError aclDemo).1
        = .error (.Decode "body does not decode as the API error object")
    ∧ isApiError (c403.delete decodeGoogleError aclDemo).1 = false :=
  ⟨rfl, rfl,
    (claim_delete_403_empty_decode c403 aclDemo hdrsDemo rfl rfl).1,
    (claim_delete_403_empty_decode c403 aclDemo hdrsDemo rfl rfl).2.1⟩

/-- C4: the member URL used by `read` (and by `update`/`delete` via the
entry's embedded entity) is the collection URL, a solidus, and the
percent-encoding of the entity's canonical string — a single path
segment (no solidus survives encoding) whose percent-decoding is
exactly the canonical string. -/
theorem claim_member_url_roundtrip
    (self : BucketAccessControlClient) (e : Entity) (h : Headers)
    (acl : BucketAccessControl)
    (hacl : acl.entity = e)
    (hsb : singleByteStr e.to_string = true) :
    (read_req self e h).url
        = self.bucket_acl_url ++ "/" ++ percent_encode e.to_string
    ∧ (update_req self acl h).url
        = self.bucket_acl_url ++ "/" ++ percent_encode e.to_string
    ∧ (delete_req self acl h).url
        = self.bucket_acl_url ++ "/" ++ percent_encode e.to_string
    ∧ percent_decode (percent_encode e.to_string) = e.to_string
    ∧ '/' ∉ (percent_encode e.to_string).data := by
  have hsb' : e.to_string.data.all (fun c => decide (c.toNat < 256)) = true := hsb
  have hlt : ∀ c ∈ e.to_string.data, c.toNat < 256 := by
    intro c hc
    exact of_decide_eq_true (List.all_eq_true.mp hsb' c hc)
  refine ⟨rfl, by simp [update_req, hacl], by simp [delete_req, hacl], ?_, ?_⟩
  · show String.mk (percentDecodeList (percentEncodeList e.to_string.data))
        = e.to_string
    rw [percentDecodeList_percentEncodeList _ hlt]
  · exact solidus_not_mem_percentEncodeList _

/-- Witness for C4 at an entity embedding a solidus and an at sign. -/
theorem claim_member_url_roundtrip_witness :
    aclDemo.entity = entityDemo
    ∧ singleByteStr entityDemo.to_string = true
    ∧ (read_req c403 entityDemo hdrsDemo).url
        = demoUrl ++ "/" ++ percent_encode entityDemo.to_string
    ∧ percent_decode (percent_encode entityDemo.to_string)
        = entityDemo.to_string
    ∧ '/' ∉ (percent_encode entityDemo.to_string).data :=
  ⟨rfl, by decide,
    (claim_member_url_roundtrip c403 entityDemo hdrsDemo aclDemo rfl
      (by decide)).1,
    (claim_member_url_roundtrip c403 entityDemo hdrsDemo aclDemo rfl
      (by decide)).2.2.2.1,
    (claim_member_url_roundtrip c403 entityDemo hdrsDemo aclDemo rfl
      (by decide)).2.2.2.2⟩

/-- C5: each operation uses exactly the verb, URL, request body, and
success payload of the table: POST collection with the creation payload
for `create_using`, GET collection for `list`, GET member for `read`,
PUT member with the full entry for `update`, DELETE member for
`delete`; the success value is the decoded entry (the item list for
`list`, unit for `delete`). -/
theorem claim_operation_table
    (self : BucketAccessControlClient)
    (dec : EnvelopeDecoder BucketAccessControl)
    (decl : EnvelopeDecoder (ListResponse BucketAccessControl))
    (decErr : String → Except String GoogleErrorBody)
    (n : create.BucketAccessControl) (e : Entity)
    (acl : BucketAccessControl) (h : Headers) (resp : HttpResponse)
    (v : BucketAccessControl) (lr : ListResponse BucketAccessControl)
    (hh : self.client.get_headers = .ok h) :
    requestsOf (self.create_using dec n).2
        = [⟨.POST, self.bucket_acl_url, h, .newAcl n⟩]
    ∧ requestsOf (self.list decl).2 = [⟨.GET, self.bucket_acl_url, h, .none⟩]
    ∧ requestsOf (self.read dec e).2
        = [⟨.GET, self.bucket_acl_url ++ "/" ++ percent_encode e.to_string,
            h, .none⟩]
    ∧ requestsOf (self.update dec acl).2
        = [⟨.PUT,
            self.bucket_acl_url ++ "/"
              ++ percent_encode acl.entity.to_string,
            h, .acl acl⟩]
    ∧ requestsOf (self.delete decErr acl).2
        = [⟨.DELETE,
            self.bucket_acl_url ++ "/"
              ++ percent_encode acl.entity.to_string,
            h, .none⟩]
    ∧ (self.client.transport (create_req self n h) = .ok resp →
        dec resp.body = .ok (.success v) →
        (self.create_using dec n).1 = .ok v)
    ∧ (self.client.transport (list_req self h) = .ok resp →
        decl resp.body = .ok (.success lr) →
        (self.list decl).1 = .ok lr.items)
    ∧ (self.client.transport (read_req self e h) = .ok resp →
        dec resp.body = .ok (.success v) →
        (self.read dec e).1 = .ok v)
    ∧ (self.client.transport (update_req self acl h) = .ok resp →
        dec resp.body = .ok (.success v) →
        (self.update dec acl).1 = .ok v)
    ∧ (self.client.transport (delete_req self acl h) = .ok resp →
        status_is_success resp.status = true →
        (self.delete decErr acl).1 = .ok ()) := by
  refine ⟨?_, ?_, ?_, ?_, ?_, ?_, ?_, ?_, ?_, ?_⟩
  · unfold BucketAccessControlClient.create_using
    rw [hh]
    cases htr : self.client.transport (create_req self n h) with
    | error te => simp only [htr]; simp [requestsOf, create_req]
    | ok resp2 =>
      cases hde : dec resp2.body <;>
        (simp only [htr, hde]; simp [requestsOf, create_req])
  · unfold BucketAccessControlClient.list
    rw [hh]
    cases htr : self.client.transport (list_req self h) with
    | error te => simp only [htr]; simp [requestsOf, list_req]
    | ok resp2 =>
      cases hde : decl resp2.body <;>
        (simp only [htr, hde]; simp [requestsOf, list_req])
  · unfold BucketAccessControlClient.read
    rw [hh]
    cases htr : self.client.transport (read_req self e h) with
    | error te => simp only [htr]; simp [requestsOf, read_req]
    | ok resp2 =>
      cases hde : dec resp2.body <;>
        (simp only [htr, hde]; simp [requestsOf, read_req])
  · unfold BucketAccessControlClient.update
    rw [hh]
    cases htr : self.client.transport (update_req self acl h) with
    | error te => simp only [htr]; simp [requestsOf, update_req]
    | ok resp2 =>
      cases hde : dec resp2.body <;>
        (simp only [htr, hde]; simp [requestsOf, update_req])
  · unfold BucketAccessControlClient.delete
    rw [hh]
    cases htr : self.client.transport (delete_req self acl h) with
    | error te => simp only [htr]; simp [requestsOf, delete_req]
    | ok resp2 =>
      cases hs : status_is_success resp2.status with
      | true => simp only [htr, hs]; simp [requestsOf, delete_req]
      | false =>
        cases hde : decErr resp2.body <;>
          (simp only [htr, hs, hde]; simp [requestsOf, delete_req])
  · intro ht hde
    unfold BucketAccessControlClient.create_using
    rw [hh]
    simp only [ht, hde]
    rfl
  · intro ht hde
    unfold BucketAccessControlClient.list
    rw [hh]
    simp only [ht, hde]
    rfl
  · intro ht hde
    unfold BucketAccessControlClient.read
    rw [hh]
    simp only [ht, hde]
    rfl
  · intro ht hde
    unfold BucketAccessControlClient.update
    rw [hh]
    simp only [ht, hde]
    rfl
  · intro ht hs
    unfold BucketAccessControlClient.delete
    rw [hh]
    simp only [ht, hs]
    rfl

/-- Witness for C5: concrete runs of the five operations against a 204
transport with an always-succeeding decoder. -/
theorem claim_operation_table_witness :
    c204.client.get_headers = .ok hdrsDemo
    ∧ c204.client.transport (create_req c204 newDemo hdrsDemo) = .ok ⟨204, ""⟩
    ∧ requestsOf (c204.create_using decOk newDemo).2
        = [⟨.POST, demoUrl, hdrsDemo, .newAcl newDemo⟩]
    ∧ requestsOf (c204.list declOk).2 = [⟨.GET, demoUrl, hdrsDemo, .none⟩]
    ∧ requestsOf (c204.read decOk entityDemo).2
        = [⟨.GET, demoUrl ++ "/" ++ percent_encode entityDemo.to_string,
            hdrsDemo, .none⟩]
    ∧ requestsOf (c204.update decOk aclDemo).2
        = [⟨.PUT, demoUrl ++ "/" ++ percent_encode aclDemo.entity.to_string,
            hdrsDemo, .acl aclDemo⟩]
    ∧ requestsOf (c204.delete decodeGoogleError aclDemo).2
        = [⟨.DELETE,
            demoUrl ++ "/" ++ percent_encode aclDemo.entity.to_string,
            hdrsDemo, .none⟩]
    ∧ (c204.create_using decOk newDemo).1 = .ok aclDemo
    ∧ (c204.list declOk).1 = .ok [aclDemo]
    ∧ (c204.read decOk entityDemo).1 = .ok aclDemo
    ∧ (c204.update decOk aclDemo).1 = .ok aclDemo
    ∧ (c204.delete decodeGoogleError aclDemo).1 = .ok () := by
  have T := claim_operation_table c204 decOk declOk decodeGoogleError newDemo
    entityDemo aclDemo hdrsDemo ⟨204, ""⟩ aclDemo ⟨[aclDemo]⟩ rfl
  exact ⟨rfl, rfl, T.1, T.2.1, T.2.2.1, T.2.2.2.1, T.2.2.2.2.1,
    T.2.2.2.2.2.1 rfl rfl, T.2.2.2.2.2.2.1 rfl rfl,
    T.2.2.2.2.2.2.2.1 rfl rfl, T.2.2.2.2.2.2.2.2.1 rfl rfl,
    T.2.2.2.2.2.2.2.2.2 rfl (by decide)⟩

/-- C6: for `update` and `delete` the request URL is derived from the
entity field of the entry as passed at call time; an entry differing
only in its other fields addresses the same member URL, and one with
the same entity value yields the same URL. -/
theorem claim_url_rederived_from_entity
    (self : BucketAccessControlClient)
    (dec : EnvelopeDecoder BucketAccessControl)
    (decErr : String → Except String GoogleErrorBody)
    (acl acl2 : BucketAccessControl) (h : Headers)
    (hh : self.client.get_headers = .ok h)
    (hsame : acl2.entity = acl.entity) :
    (requestsOf (self.update dec acl).2).map HttpRequest.url
        = [self.bucket_acl_url ++ "/" ++ percent_encode acl.entity.to_string]
    ∧ (requestsOf (self.delete decErr acl).2).map HttpRequest.url
        = [self.bucket_acl_url ++ "/" ++ percent_encode acl.entity.to_string]
    ∧ (requestsOf (self.update dec acl2).2).map HttpRequest.url
        = (requestsOf (self.update dec acl).2).map HttpRequest.url
    ∧ (requestsOf (self.delete decErr acl2).2).map HttpRequest.url
        = (requestsOf (self.delete decErr acl).2).map HttpRequest.url := by
  have hu : ∀ a : BucketAccessControl,
      (requestsOf (self.update dec a).2).map HttpRequest.url
        = [self.bucket_acl_url ++ "/" ++ percent_encode a.entity.to_string] := by
    intro a
    unfold BucketAccessControlClient.update
    rw [hh]
    cases htr : self.client.transport (update_req self a h) with
    | error te => simp only [htr]; simp [requestsOf, update_req]
    | ok resp2 =>
      cases hde : dec resp2.body <;>
        (simp only [htr, hde]; simp [requestsOf, update_req])
  have hd : ∀ a : BucketAccessControl,
      (requestsOf (self.delete decErr a).2).map HttpRequest.url
        = [self.bucket_acl_url ++ "/" ++ percent_encode a.entity.to_string] := by
    intro a
    unfold BucketAccessControlClient.delete
    rw [hh]
    cases htr : self.client.transport (delete_req self a h) with
    | error te => simp only [htr]; simp [requestsOf, delete_req]
    | ok resp2 =>
      cases hs : status_is_success resp2.status with
      | true => simp only [htr, hs]; simp [requestsOf, delete_req]
      | false =>
        cases hde : decErr resp2.body <;>
          (simp only [htr, hs, hde]; simp [requestsOf, delete_req])
  exact ⟨hu acl, hd acl, by rw [hu acl2, hu acl, hsame],
    by rw [hd acl2, hd acl, hsame]⟩

/-- Witness for C6: two concrete entries sharing an entity but
differing in role and server-assigned fields address the same URL. -/
theorem claim_url_rederived_from_entity_witness :
    c204.client.get_headers = .ok hdrsDemo
    ∧ aclDemo2.entity = aclDemo.entity
    ∧ (requestsOf (c204.update decOk aclDemo).2).map HttpRequest.url
        = [demoUrl ++ "/" ++ percent_encode aclDemo.entity.to_string]
    ∧ (requestsOf (c204.delete decodeGoogleError aclDemo2).2).map
          HttpRequest.url
        = (requestsOf (c204.delete decodeGoogleError aclDemo).2).map
          HttpRequest.url :=
  ⟨rfl, rfl,
    (claim_url_rederived_from_entity c204 decOk decodeGoogleError aclDemo
      aclDemo2 hdrsDemo rfl rfl).1,
    (claim_url_rederived_from_entity c204 decOk decodeGoogleError aclDemo
      aclDemo2 hdrsDemo rfl rfl).2.2.2⟩

/-- C7: when the transport fails before returning any response, every
operation returns a Transport error and no body decoding is ever
attempted. -/
theorem claim_transport_failure_short_circuits
    (self : BucketAccessControlClient)
    (dec : EnvelopeDecoder BucketAccessControl)
    (decl : EnvelopeDecoder (ListResponse BucketAccessControl))
    (decErr : String → Except String GoogleErrorBody)
    (n : create.BucketAccessControl) (e : Entity)
    (acl : BucketAccessControl) (h : Headers) (msg : String)
    (hh : self.client.get_headers = .ok h) :
    (self.client.transport (create_req self n h) = .error msg →
      (self.create_using dec n).1 = .error (.Transport msg)
      ∧ decodesOf (self.create_using dec n).2 = [])
    ∧ (self.client.transport (list_req self h) = .error msg →
      (self.list decl).1 = .error (.Transport msg)
      ∧ decodesOf (self.list decl).2 = [])
    ∧ (self.client.transport (read_req self e h) = .error msg →
      (self.read dec e).1 = .error (.Transport msg)
      ∧ decodesOf (self.read dec e).2 = [])
    ∧ (self.client.transport (update_req self acl h) = .error msg →
      (self.update dec acl).1 = .error (.Transport msg)
      ∧ decodesOf (self.update dec acl).2 = [])
    ∧ (self.client.transport (delete_req self acl h) = .error msg →
      (self.delete decErr acl).1 = .error (.Transport msg)
      ∧ decodesOf (self.delete decErr acl).2 = []) := by
  refine ⟨fun ht => ?_, fun ht => ?_, fun ht => ?_, fun ht => ?_,
    fun ht => ?_⟩
  · unfold BucketAccessControlClient.create_using
    rw [hh]
    simp only [ht]
    exact ⟨trivial, rfl⟩
  · unfold BucketAccessControlClient.list
    rw [hh]
    simp only [ht]
    exact ⟨trivial, rfl⟩
  · unfold BucketAccessControlClient.read
    rw [hh]
    simp only [ht]
    exact ⟨trivial, rfl⟩
  · unfold BucketAccessControlClient.update
    rw [hh]
    simp only [ht]
    exact ⟨trivial, rfl⟩
  · unfold BucketAccessControlClient.delete
    rw [hh]
    simp only [ht]
    exact ⟨trivial, rfl⟩

/-- Witness for C7: a concrete transport that always fails. -/
theorem claim_transport_failure_short_circuits_witness :
    cDown.client.get_headers = .ok hdrsDemo
    ∧ cDown.client.transport (read_req cDown entityDemo hdrsDemo)
        = .error "connection reset"
    ∧ (cDown.read decOk entityDemo).1
        = .error (.Transport "connection reset")
    ∧ decodesOf (cDown.read decOk entityDemo).2 = []
    ∧ (cDown.delete decodeGoogleError aclDemo).1
        = .error (.Transport "connection reset")
    ∧ decodesOf (cDown.delete decodeGoogleError aclDemo).2 = [] :=
  ⟨rfl, rfl,
    ((claim_transport_failure_short_circuits cDown decOk declOk
        decodeGoogleError newDemo entityDemo aclDemo hdrsDemo
        "connection reset" rfl).2.2.1 rfl).1,
    ((claim_transport_failure_short_circuits cDown decOk declOk
        decodeGoogleError newDemo entityDemo aclDemo hdrsDemo
        "connection reset" rfl).2.2.1 rfl).2,
    ((claim_transport_failure_short_circuits cDown decOk declOk
        decodeGoogleError newDemo entityDemo aclDemo hdrsDemo
        "connection reset" rfl).2.2.2.2 rfl).1,
    ((claim_transport_failure_short_circuits cDown decOk declOk
        decodeGoogleError newDemo entityDemo aclDemo hdrsDemo
        "connection reset" rfl).2.2.2.2 rfl).2⟩

/-- C8: when the credential provider fails, every operation returns
that very error through the single error channel and no HTTP request is
issued at all. -/
theorem claim_header_failure_no_request
    (self : BucketAccessControlClient)
    (dec : EnvelopeDecoder BucketAccessControl)
    (decl : EnvelopeDecoder (ListResponse BucketAccessControl))
    (decErr : String → Except String GoogleErrorBody)
    (n : create.BucketAccessControl) (e : Entity)
    (acl : BucketAccessControl) (err : Error)
    (hg : self.client.get_headers = .error err) :
    ((self.create_using dec n).1 = .error err
      ∧ requestsOf (self.create_using dec n).2 = [])
    ∧ ((self.list decl).1 = .error err
      ∧ requestsOf (self.list decl).2 = [])
    ∧ ((self.read dec e).1 = .error err
      ∧ requestsOf (self.read dec e).2 = [])
    ∧ ((self.update dec acl).1 = .error err
      ∧ requestsOf (self.update dec acl).2 = [])
    ∧ ((self.delete decErr acl).1 = .error err
      ∧ requestsOf (self.delete decErr acl).2 = []) := by
  refine ⟨?_, ?_, ?_, ?_, ?_⟩
  · unfold BucketAccessControlClient.create_using
    rw [hg]
    exact ⟨rfl, rfl⟩
  · unfold BucketAccessControlClient.list
    rw [hg]
    exact ⟨rfl, rfl⟩
  · unfold BucketAccessControlClient.read
    rw [hg]
    exact ⟨rfl, rfl⟩
  · unfold BucketAccessControlClient.update
    rw [hg]
    exact ⟨rfl, rfl⟩
  · unfold BucketAccessControlClient.delete
    rw [hg]
    exact ⟨rfl, rfl⟩

/-- Witness for C8: a concrete credential provider that fails. -/
theorem claim_header_failure_no_request_witness :
    cNoAuth.client.get_headers
        = .error (.Transport "credential refresh failed")
    ∧ (cNoAuth.create_using decOk newDemo).1
        = .error (.Transport "credential refresh failed")
    ∧ requestsOf (cNoAuth.create_using decOk newDemo).2 = []
    ∧ (cNoAuth.delete decodeGoogleError aclDemo).1
        = .error (.Transport "credential refresh failed")
    ∧ requestsOf (cNoAuth.delete decodeGoogleError aclDemo).2 = [] :=
  ⟨rfl,
    (claim_header_failure_no_request cNoAuth decOk declOk decodeGoogleError
      newDemo entityDemo aclDemo (.Transport "credential refresh failed")
      rfl).1.1,
    (claim_header_failure_no_request cNoAuth decOk declOk decodeGoogleError
      newDemo entityDemo aclDemo (.Transport "credential refresh failed")
      rfl).1.2,
    (claim_header_failure_no_request cNoAuth decOk declOk decodeGoogleError
      newDemo entityDemo aclDemo (.Transport "credential refresh failed")
      rfl).2.2.2.2.1,
    (claim_header_failure_no_request cNoAuth decOk declOk decodeGoogleError
      newDemo entityDemo aclDemo (.Transport "credential refresh failed")
      rfl).2.2.2.2.2⟩

/-- C9: for `create_using`, `list`, `read` and `update` the response
status is never inspected: the result is a function of the decoded body
alone, so even under an error-class status a body decoding as a
well-formed success payload is returned as success. -/
theorem claim_status_ignored_except_delete
    (self : BucketAccessControlClient)
    (dec : EnvelopeDecoder BucketAccessControl)
    (decl : EnvelopeDecoder (ListResponse BucketAccessControl))
    (n : create.BucketAccessControl) (e : Entity)
    (acl : BucketAccessControl) (h : Headers) (resp : HttpResponse)
    (v : BucketAccessControl) (lr : ListResponse BucketAccessControl)
    (hh : self.client.get_headers = .ok h)
    (_hstat : status_is_success resp.status = false) :
    (self.client.transport (create_req self n h) = .ok resp →
      (self.create_using dec n).1
          = match dec resp.body with
            | .error m => .error (.Decode m)
            | .ok env => env.toResult)
    ∧ (self.client.transport (list_req self h) = .ok resp →
      (self.list decl).1
          = match decl resp.body with
            | .error m => .error (.Decode m)
            | .ok env => env.toResult.map ListResponse.items)
    ∧ (self.client.transport (read_req self e h) = .ok resp →
      (self.read dec e).1
          = match dec resp.body with
            | .error m => .error (.Decode m)
            | .ok env => env.toResult)
    ∧ (self.client.transport (update_req self acl h) = .ok resp →
      (self.update dec acl).1
          = match dec resp.body with
            | .error m => .error (.Decode m)
            | .ok env => env.toResult)
    ∧ (self.client.transport (create_req self n h) = .ok resp →
        dec resp.body = .ok (.success v) →
        (self.create_using dec n).1 = .ok v)
    ∧ (self.client.transport (list_req self h) = .ok resp →
        decl resp.body = .ok (.success lr) →
        (self.list decl).1 = .ok lr.items)
    ∧ (self.client.transport (read_req self e h) = .ok resp →
        dec resp.body = .ok (.success v) →
        (self.read dec e).1 = .ok v)
    ∧ (self.client.transport (update_req self acl h) = .ok resp →
        dec resp.body = .ok (.success v) →
        (self.update dec acl).1 = .ok v) := by
  refine ⟨fun ht => ?_, fun ht => ?_, fun ht => ?_, fun ht => ?_,
    fun ht hde => ?_, fun ht hde => ?_, fun ht hde => ?_, fun ht hde => ?_⟩
  · unfold BucketAccessControlClient.create_using
    rw [hh]
    simp only [ht]
    cases hde : dec resp.body <;> simp [hde]
  · unfold BucketAccessControlClient.list
    rw [hh]
    simp only [ht]
    cases hde : decl resp.body <;> simp [hde]
  · unfold BucketAccessControlClient.read
    rw [hh]
    simp only [ht]
    cases hde : dec resp.body <;> simp [hde]
  · unfold BucketAccessControlClient.update
    rw [hh]
    simp only [ht]
    cases hde : dec resp.body <;> simp [hde]
  · unfold BucketAccessControlClient.create_using
    rw [hh]
    simp only [ht, hde]
    rfl
  · unfold BucketAccessControlClient.list
    rw [hh]
    simp only [ht, hde]
    rfl
  · unfold BucketAccessControlClient.read
    rw [hh]
    simp only [ht, hde]
    rfl
  · unfold BucketAccessControlClient.update
    rw [hh]
    simp only [ht, hde]
    rfl

/-- Witness for C9: against a transport answering status 400, the four
non-delete operations still return the decoded success payload. -/
theorem claim_status_ignored_except_delete_witness :
    c400.client.get_headers = .ok hdrsDemo
    ∧ c400.client.transport (create_req c400 newDemo hdrsDemo)
        = .ok ⟨400, "payload"⟩
    ∧ status_is_success 400 = false
    ∧ (c400.create_using decOk newDemo).1 = .ok aclDemo
    ∧ (c400.list declOk).1 = .ok [aclDemo]
    ∧ (c400.read decOk entityDemo).1 = .ok aclDemo
    ∧ (c400.update decOk aclDemo).1 = .ok aclDemo := by
  have T := claim_status_ignored_except_delete c400 decOk declOk newDemo
    entityDemo aclDemo hdrsDemo ⟨400, "payload"⟩ aclDemo ⟨[aclDemo]⟩ rfl
    (by decide)
  exact ⟨rfl, rfl, by decide, T.2.2.2.2.1 rfl rfl, T.2.2.2.2.2.1 rfl rfl,
    T.2.2.2.2.2.2.1 rfl rfl, T.2.2.2.2.2.2.2 rfl rfl⟩

/-- C10: every operation takes the client handle by shared reference
and leaves it unchanged: running any sequence of calls hands the handle
back identical (same collection URL, same context), and each call in
the sequence behaves exactly as a fresh call on the original handle
(member URLs are recomputed per call, never stored). -/
theorem claim_client_state_unchanged
    (dec : EnvelopeDecoder BucketAccessControl)
    (decl : EnvelopeDecoder (ListResponse BucketAccessControl))
    (decErr : String → Except String GoogleErrorBody)
    (self : BucketAccessControlClient) (cs : List OpCall) :
    (runOps dec decl decErr self cs).2 = self
    ∧ (runOps dec decl decErr self cs).1
        = cs.map fun c => (callOp dec decl decErr self c).1 := by
  induction cs with
  | nil => exact ⟨rfl, rfl⟩
  | cons c cs ih =>
    constructor
    · show (runOps dec decl decErr (callOp dec decl decErr self c).2 cs).2
          = self
      rw [callOp_handle]
      exact ih.1
    · show (callOp dec decl decErr self c).1
            :: (runOps dec decl decErr (callOp dec decl decErr self c).2 cs).1
          = (c :: cs).map fun c => (callOp dec decl decErr self c).1
      rw [callOp_handle, List.map_cons, ih.2]

end CloudStorage
